import Mathlib

/-!
Verification of the natural-language specification of
`src/Source-Map-Extractor/grab_sources_from_site.py` against the program's
code, via a shallow embedding in Lean 4.  Pure string manipulation is
translated directly; network and filesystem effects are modelled as
explicit oracles / event traces.
-/

namespace Grab

/- ### String utilities mirroring the Python primitives used by the script -/

/-- Python `str.lstrip('/')` on a character list. -/
def lstripSlashL (l : List Char) : List Char := l.dropWhile (fun c => c = '/')

/-- Python `str.rstrip('/')` on a character list. -/
def rstripSlashL (l : List Char) : List Char :=
  (l.reverse.dropWhile (fun c => c = '/')).reverse

/-- Python `str.strip('/')` on a character list (right-strip then left-strip;
the order is immaterial). -/
def stripSlashL (l : List Char) : List Char := lstripSlashL (rstripSlashL l)

/-- Python `str.rstrip('/')` on a string (used on `sys.argv[1]`, line 28). -/
def rstripSlash (s : String) : String := String.mk (rstripSlashL s.toList)

/-- The ASCII whitespace class of Python's `str.strip()` and of `\s` in an
ASCII regex: space, tab, newline, carriage return, vertical tab, form feed.
(Non-ASCII whitespace is out of scope for this model.) -/
def isPyWS (c : Char) : Bool :=
  c = ' ' || c = '\t' || c = '\n' || c = '\r' || c.toNat = 11 || c.toNat = 12

/-- Python `str.strip()` on a character list. -/
def pyStripL (l : List Char) : List Char :=
  ((l.dropWhile isPyWS).reverse.dropWhile isPyWS).reverse

/-- Python `str.strip()` on a string. -/
def pyStrip (s : String) : String := String.mk (pyStripL s.toList)

/-- Bool test: does the character list start with the given character? -/
def headIs (l : List Char) (c : Char) : Bool :=
  match l with
  | [] => false
  | a :: _ => a = c

/-- Bool test: does the character list end with the given character? -/
def lastIs (l : List Char) (c : Char) : Bool := headIs l.reverse c

/-- Bool test: does the string start with the given character? -/
def startsWithChar (s : String) (c : Char) : Bool := headIs s.toList c

/-- Python `s.startswith(p)` for strings. -/
def strStartsWith (s p : String) : Bool := p.toList.isPrefixOf s.toList

/-- Python `p in s` substring test. -/
def strContains (s p : String) : Bool :=
  s.toList.tails.any (fun t => p.toList.isPrefixOf t)

/- ### os.path.join (posixpath, two components) -/

/-- Python `os.path.join(a, b)` (posixpath, two components): an absolute
second component discards the first; otherwise the components are joined
with exactly one `/` between them. -/
def osPathJoinL (a b : List Char) : List Char :=
  if headIs b '/' then b
  else if a.isEmpty then b
  else if lastIs a '/' then a ++ b
  else a ++ '/' :: b

/-- `os.path.join` on strings. -/
def os_path_join (a b : String) : String :=
  String.mk (osPathJoinL a.toList b.toList)

/-- The on-disk target of `save_file` (line 42): `os.path.join(out_dir, path)`. -/
def save_file_target (out_dir path : String) : String := os_path_join out_dir path

/- ### Path Sanitizer: the cleanup of lines 180-185 (remote-script branch) -/

/-- The substitution `re.sub(r'^[a-z]+:/\x7b0,3\x7d', '', s)` of line 182: if the
string begins with one or more lowercase letters followed by `:`, drop that
prefix together with up to three following slashes; otherwise leave the
string unchanged. -/
def stripSchemeL (l : List Char) : List Char :=
  let letters := l.takeWhile Char.isLower
  if letters.isEmpty then l
  else
    match l.drop letters.length with
    | ':' :: rest => rest.drop (min 3 (rest.takeWhile (fun c => c = '/')).length)
    | _ => l

/-- Path Sanitizer (lines 180-185): strip one leading pseudo-scheme, strip
leading slashes, then (when `sourceRoot` is non-empty) prepend the
slash-trimmed `sourceRoot` via `os.path.join`. -/
def sanitizeL (src root : List Char) : List Char :=
  let cleaned := lstripSlashL (stripSchemeL src)
  if root.isEmpty then cleaned
  else osPathJoinL (stripSlashL root) cleaned

/-- Path Sanitizer on strings. -/
def sanitize (src root : String) : String :=
  String.mk (sanitizeL src.toList root.toList)

/-- Bool test: does the string begin with a scheme token `[a-z]+:`
(the very shape the sanitizer's regex is meant to strip)? -/
def startsWithSchemeToken (s : String) : Bool :=
  let letters := s.toList.takeWhile Char.isLower
  !letters.isEmpty && headIs (s.toList.drop letters.length) ':'

/- ### Lemmas: the sanitizer's output never starts with a slash -/

theorem headIs_dropWhile_of_mem (p : Char → Bool) (c : Char) (hc : p c = true) :
    ∀ l : List Char, headIs (l.dropWhile p) c = false := by
  intro l
  induction l with
  | nil => rfl
  | cons a t ih =>
    cases hpa : p a with
    | true => simpa [List.dropWhile_cons, hpa] using ih
    | false =>
      simp only [List.dropWhile_cons, hpa, Bool.false_eq_true, if_false, headIs]
      by_cases hac : a = c
      · subst hac; rw [hc] at hpa; exact absurd hpa (by simp)
      · simp [hac]

theorem headIs_lstripSlashL (l : List Char) : headIs (lstripSlashL l) '/' = false :=
  headIs_dropWhile_of_mem _ _ (by decide) l

theorem headIs_stripSlashL (l : List Char) : headIs (stripSlashL l) '/' = false :=
  headIs_lstripSlashL _

theorem headIs_osPathJoinL (a b : List Char)
    (ha : headIs a '/' = false) (hb : headIs b '/' = false) :
    headIs (osPathJoinL a b) '/' = false := by
  unfold osPathJoinL
  rw [hb]
  simp only [Bool.false_eq_true, if_false]
  by_cases hae : a.isEmpty
  · simp [hae, hb]
  · simp only [hae, Bool.false_eq_true, if_false]
    cases a with
    | nil => simp at hae
    | cons x t =>
      by_cases hl : lastIs (x :: t) '/'
      · simpa [hl, headIs, List.cons_append] using (by simpa [headIs] using ha)
      · simp only [hl, if_false, Bool.false_eq_true]
        simpa [headIs, List.cons_append] using (by simpa [headIs] using ha)

theorem sanitizeL_head_not_slash (src root : List Char) :
    headIs (sanitizeL src root) '/' = false := by
  unfold sanitizeL
  by_cases hr : root.isEmpty
  · simpa [hr] using headIs_lstripSlashL (stripSchemeL src)
  · simp only [hr, Bool.false_eq_true, if_false]
    exact headIs_osPathJoinL _ _ (headIs_stripSlashL root)
      (headIs_lstripSlashL (stripSchemeL src))

/- ### urljoin: modelled collaborator -/

/-- Characters allowed in a URL scheme (RFC 3986, as in `urllib.parse`). -/
def isSchemeChar (c : Char) : Bool := c.isAlpha || c.isDigit || c = '+' || c = '-' || c = '.'

/-- Bool test: does the string begin with `scheme:` (first char a letter)? -/
def urlHasSchemeL (l : List Char) : Bool :=
  match l with
  | c :: _ => if c.isAlpha then headIs (l.dropWhile isSchemeChar) ':' else false
  | [] => false

/-- Split `scheme://host/path` into (`scheme://host`, `/path`). -/
def splitSchemeHostAux : List Char → List Char → Option (List Char × List Char)
  | acc, ':' :: '/' :: '/' :: rest =>
    let host := rest.takeWhile (fun c => c ≠ '/')
    some (acc.reverse ++ ':' :: '/' :: '/' :: host, rest.drop host.length)
  | acc, c :: rest => splitSchemeHostAux (c :: acc) rest
  | _, [] => none

def splitSchemeHostL (u : List Char) : Option (List Char × List Char) :=
  splitSchemeHostAux [] u

/-- The directory part of a URL path, up to and including the last `/`
(`/` itself when the path has none). -/
def dirOfL (p : List Char) : List Char :=
  let r := p.reverse.dropWhile (fun c => c ≠ '/')
  if r.isEmpty then ['/'] else r.reverse

/-- Modelled collaborator `urllib.parse.urljoin`, restricted to the shapes
this program feeds it: an empty or scheme-carrying second argument is
returned as-is (schemes such as `data:` or `webpack:` are not in
`uses_relative`), a host-relative `/...` path replaces the base's path, and
any other relative path replaces the final segment of the base's path.
Dot-segment normalization is not modelled (no input in this development
contains `.` or `..` segments). -/
def urljoinL (base rel : List Char) : List Char :=
  if rel.isEmpty then base
  else if urlHasSchemeL rel then rel
  else
    match splitSchemeHostL base with
    | some (sh, path) =>
      if headIs rel '/' then sh ++ rel
      else sh ++ dirOfL path ++ rel
    | none => rel

/-- `urljoin` on strings. -/
def urljoin (base rel : String) : String :=
  String.mk (urljoinL base.toList rel.toList)

/- ### Network oracle and try_fetch_source_by_url (lines 98-107) -/

/-- Outcome of one `session.get`: a response with a status code and body
text, or a raised connection/timeout exception. -/
inductive HttpResult where
  | resp (status : Nat) (body : String)
  | exn
deriving DecidableEq

/-- `try_fetch_source_by_url` (lines 98-107): resolve the source path
against the map URL, issue one GET; return the body exactly when the
status is 200 and the stripped body is non-empty; any exception or other
response yields `none`. -/
def try_fetch_source_by_url (net : String → HttpResult)
    (source_path map_url : String) : Option String :=
  match net (urljoin map_url source_path) with
  | HttpResult.exn => none
  | HttpResult.resp st body =>
    if st = 200 then
      (if (pyStripL body.toList).isEmpty then none else some body)
    else none

/- ### The per-source recovery loops of MAIN (lines 133-147 and 177-198) -/

/-- Observable actions of the per-source loops: a network GET for a source,
a file save, and the ` - Could not obtain content for source: ...` log line. -/
inductive Event where
  | fetch (url : String)
  | save (path : String) (content : String)
  | logSkip (src : String)
deriving DecidableEq, Repr

def Event.isSave : Event → Bool
  | Event.save _ _ => true
  | _ => false

def Event.isLogSkip : Event → Bool
  | Event.logSkip _ => true
  | _ => false

/-- Number of files saved by a run of the loop. -/
def saveCount (evs : List Event) : Nat := (evs.filter Event.isSave).length

/-- Number of skip log lines printed by a run of the loop. -/
def logCount (evs : List Event) : Nat := (evs.filter Event.isLogSkip).length

/-- The test `contents and i < len(contents) and contents[i] is not None`
(lines 139 and 187), returning the embedded content when it succeeds. -/
def embeddedContent (contents : List (Option String)) (i : Nat) : Option String :=
  if contents.isEmpty then none
  else
    match contents[i]? with
    | some (some c) => some c
    | _ => none

/-- `map_url_guess` (line 191): the map's resolved URL for a non-`data:`
reference, the script's own final URL for a `data:` reference. -/
def remoteMapUrlGuess (sm js_final_url : String) : String :=
  if strStartsWith sm "data:" then js_final_url else urljoin js_final_url sm

/-- The filename of the inline-script branch (lines 134-136): the raw
sources entry, prefixed by the raw `sourceRoot` via `os.path.join` when
that is non-empty.  No sanitization. -/
def inlineFilename (root src : String) : String :=
  if root = "" then src else os_path_join root src

/-- One iteration of the remote-script per-source loop (lines 177-198);
`sanitize src src_root` is the loop's `cleaned` and
`remoteMapUrlGuess sm js_final_url` its `map_url_guess`. -/
def recoverStepRemote (net : String → HttpResult)
    (sm js_final_url src_root : String) (contents : List (Option String))
    (i : Nat) (src : String) : List Event :=
  match embeddedContent contents i with
  | some c => [Event.save (sanitize src src_root) c]
  | none =>
    match try_fetch_source_by_url net src (remoteMapUrlGuess sm js_final_url) with
    | some c =>
      [Event.fetch (urljoin (remoteMapUrlGuess sm js_final_url) src),
        Event.save (sanitize src src_root) c]
    | none =>
      [Event.fetch (urljoin (remoteMapUrlGuess sm js_final_url) src),
        Event.logSkip src]

/-- One iteration of the inline-script per-source loop (lines 133-146):
the fetch base is always the page's final URL, and an unobtainable source
is skipped with no log line. -/
def recoverStepInline (net : String → HttpResult)
    (final_page_url src_root : String) (contents : List (Option String))
    (i : Nat) (src : String) : List Event :=
  match embeddedContent contents i with
  | some c => [Event.save (inlineFilename src_root src) c]
  | none =>
    match try_fetch_source_by_url net src final_page_url with
    | some c =>
      [Event.fetch (urljoin final_page_url src),
        Event.save (inlineFilename src_root src) c]
    | none => [Event.fetch (urljoin final_page_url src)]

/-- The remote-script per-source loop from index `i` on. -/
def processRemoteAux (net : String → HttpResult)
    (sm js_final_url src_root : String) (contents : List (Option String)) :
    Nat → List String → List Event
  | _, [] => []
  | i, src :: rest =>
    recoverStepRemote net sm js_final_url src_root contents i src ++
      processRemoteAux net sm js_final_url src_root contents (i + 1) rest

/-- The full remote-script per-source loop (lines 177-198). -/
def processRemoteMapSources (net : String → HttpResult)
    (sm js_final_url src_root : String)
    (sources : List String) (contents : List (Option String)) : List Event :=
  processRemoteAux net sm js_final_url src_root contents 0 sources

/-- The inline-script per-source loop from index `i` on. -/
def processInlineAux (net : String → HttpResult)
    (final_page_url src_root : String) (contents : List (Option String)) :
    Nat → List String → List Event
  | _, [] => []
  | i, src :: rest =>
    recoverStepInline net final_page_url src_root contents i src ++
      processInlineAux net final_page_url src_root contents (i + 1) rest

/-- The full inline-script per-source loop (lines 133-146). -/
def processInlineMapSources (net : String → HttpResult)
    (final_page_url src_root : String)
    (sources : List String) (contents : List (Option String)) : List Event :=
  processInlineAux net final_page_url src_root contents 0 sources

/- ### Helper lemmas about the loops -/

theorem stringMk_eq_empty_iff (l : List Char) : String.mk l = "" ↔ l = [] := by
  constructor
  · intro h; exact congrArg String.data h
  · intro h; subst h; rfl

theorem pyStrip_ne_empty_iff (s : String) :
    pyStrip s ≠ "" ↔ (pyStripL s.toList).isEmpty = false := by
  unfold pyStrip
  rw [ne_eq, stringMk_eq_empty_iff]
  cases pyStripL s.toList <;> simp

theorem save_mem_recoverStepRemote (net : String → HttpResult)
    (sm js root : String) (contents : List (Option String)) (i : Nat)
    (src p c : String)
    (h : Event.save p c ∈ recoverStepRemote net sm js root contents i src) :
    p = sanitize src root := by
  unfold recoverStepRemote at h
  cases hem : embeddedContent contents i with
  | some c0 => rw [hem] at h; simp at h; exact h.1
  | none =>
    rw [hem] at h
    cases hf : try_fetch_source_by_url net src (remoteMapUrlGuess sm js) with
    | some c1 => rw [hf] at h; simp at h; exact h.1
    | none => rw [hf] at h; simp at h

theorem save_mem_recoverStepInline (net : String → HttpResult)
    (page root : String) (contents : List (Option String)) (i : Nat)
    (src p c : String)
    (h : Event.save p c ∈ recoverStepInline net page root contents i src) :
    p = inlineFilename root src := by
  unfold recoverStepInline at h
  cases hem : embeddedContent contents i with
  | some c0 => rw [hem] at h; simp at h; exact h.1
  | none =>
    rw [hem] at h
    cases hf : try_fetch_source_by_url net src page with
    | some c1 => rw [hf] at h; simp at h; exact h.1
    | none => rw [hf] at h; simp at h

theorem saveCount_append (a b : List Event) :
    saveCount (a ++ b) = saveCount a + saveCount b := by
  simp [saveCount, List.filter_append]

theorem saveCount_recoverStepRemote_le (net : String → HttpResult)
    (sm js root : String) (contents : List (Option String)) (i : Nat) (src : String) :
    saveCount (recoverStepRemote net sm js root contents i src) ≤ 1 := by
  unfold recoverStepRemote
  cases embeddedContent contents i with
  | some c0 => simp [saveCount, List.filter, Event.isSave]
  | none =>
    cases try_fetch_source_by_url net src (remoteMapUrlGuess sm js) with
    | some c1 => simp [saveCount, List.filter, Event.isSave]
    | none => simp [saveCount, List.filter, Event.isSave]

theorem saveCount_recoverStepInline_le (net : String → HttpResult)
    (page root : String) (contents : List (Option String)) (i : Nat) (src : String) :
    saveCount (recoverStepInline net page root contents i src) ≤ 1 := by
  unfold recoverStepInline
  cases embeddedContent contents i with
  | some c0 => simp [saveCount, List.filter, Event.isSave]
  | none =>
    cases try_fetch_source_by_url net src page with
    | some c1 => simp [saveCount, List.filter, Event.isSave]
    | none => simp [saveCount, List.filter, Event.isSave]

theorem processRemoteAux_append (net : String → HttpResult)
    (sm js root : String) (contents : List (Option String))
    (s1 s2 : List String) : ∀ i : Nat,
    processRemoteAux net sm js root contents i (s1 ++ s2) =
      processRemoteAux net sm js root contents i s1 ++
        processRemoteAux net sm js root contents (i + s1.length) s2 := by
  induction s1 with
  | nil => intro i; simp [processRemoteAux]
  | cons a t ih =>
    intro i
    have h : i + (a :: t).length = (i + 1) + t.length := by
      rw [List.length_cons]; omega
    rw [h]
    rw [show processRemoteAux net sm js root contents i ((a :: t) ++ s2) =
        recoverStepRemote net sm js root contents i a ++
          processRemoteAux net sm js root contents (i + 1) (t ++ s2) from rfl]
    rw [show processRemoteAux net sm js root contents i (a :: t) =
        recoverStepRemote net sm js root contents i a ++
          processRemoteAux net sm js root contents (i + 1) t from rfl]
    rw [ih (i + 1), List.append_assoc]

theorem processInlineAux_append (net : String → HttpResult)
    (page root : String) (contents : List (Option String))
    (s1 s2 : List String) : ∀ i : Nat,
    processInlineAux net page root contents i (s1 ++ s2) =
      processInlineAux net page root contents i s1 ++
        processInlineAux net page root contents (i + s1.length) s2 := by
  induction s1 with
  | nil => intro i; simp [processInlineAux]
  | cons a t ih =>
    intro i
    have h : i + (a :: t).length = (i + 1) + t.length := by
      rw [List.length_cons]; omega
    rw [h]
    rw [show processInlineAux net page root contents i ((a :: t) ++ s2) =
        recoverStepInline net page root contents i a ++
          processInlineAux net page root contents (i + 1) (t ++ s2) from rfl]
    rw [show processInlineAux net page root contents i (a :: t) =
        recoverStepInline net page root contents i a ++
          processInlineAux net page root contents (i + 1) t from rfl]
    rw [ih (i + 1), List.append_assoc]

/- ### Claim C1 -/

/-- Claim C1 (counterexample): the claim says every recovered file of every
processed map — inline or remote — is written at the sanitized relative
path under the output directory.  For an inline-script map with sources
entry `/etc/passwd` and embedded content, the file is saved at the raw,
unsanitized path `/etc/passwd`, which `os.path.join` then treats as
absolute, discarding the output directory entirely. -/
theorem c1_counterexample :
    processInlineMapSources (fun _ => HttpResult.exn) "http://h/" ""
        ["/etc/passwd"] [some "root:x:0"] = [Event.save "/etc/passwd" "root:x:0"] ∧
    sanitize "/etc/passwd" "" = "etc/passwd" ∧
    ("/etc/passwd" : String) ≠ "etc/passwd" ∧
    save_file_target "out" "/etc/passwd" = "/etc/passwd" ∧
    strStartsWith (save_file_target "out" "/etc/passwd") "out" = false := by
  decide

/-- Claim C1 (amended): only the remote-script branch writes recovered
files at the Path-Sanitizer path; the inline-script branch writes at the
raw sources entry joined under the raw `sourceRoot`, with no
sanitization. -/
theorem c1_amended (net : String → HttpResult) (sm js page root : String)
    (contents : List (Option String)) (sources : List String) (i : Nat)
    (p c : String) :
    (Event.save p c ∈ processRemoteAux net sm js root contents i sources →
      ∃ src ∈ sources, p = sanitize src root) ∧
    (Event.save p c ∈ processInlineAux net page root contents i sources →
      ∃ src ∈ sources, p = inlineFilename root src) := by
  induction sources generalizing i with
  | nil => simp [processRemoteAux, processInlineAux]
  | cons s rest ih =>
    constructor
    · intro h
      rw [processRemoteAux, List.mem_append] at h
      rcases h with h1 | h2
      · exact ⟨s, by simp, save_mem_recoverStepRemote net sm js root contents i s p c h1⟩
      · obtain ⟨src, hmem, hp⟩ := (ih (i + 1)).1 h2
        exact ⟨src, by simp [hmem], hp⟩
    · intro h
      rw [processInlineAux, List.mem_append] at h
      rcases h with h1 | h2
      · exact ⟨s, by simp, save_mem_recoverStepInline net page root contents i s p c h1⟩
      · obtain ⟨src, hmem, hp⟩ := (ih (i + 1)).2 h2
        exact ⟨src, by simp [hmem], hp⟩

/-- Witness for the amended C1 at a concrete remote-branch run. -/
theorem c1_amended_witness :
    ∃ src ∈ (["webpack:///a.js"] : List String), ("a.js" : String) = sanitize src "" :=
  (c1_amended (fun _ => HttpResult.exn) "m.map" "http://h/x.js" "http://h/" ""
      [some "X"] ["webpack:///a.js"] 0 "a.js" "X").1 (by decide)

/- ### Claim C2 -/

/-- Claim C2 (counterexample): the claim says that for a sources entry
beginning with a pseudo-scheme prefix the sanitizer's result never
contains an unstripped scheme.  The regex strips only the first leading
scheme, so `webpack:///http://evil.example/x.js` sanitizes to
`http://evil.example/x.js`, which still begins with the scheme token
`http:`. -/
theorem c2_counterexample :
    startsWithSchemeToken "webpack:///http://evil.example/x.js" = true ∧
    sanitize "webpack:///http://evil.example/x.js" "" = "http://evil.example/x.js" ∧
    startsWithSchemeToken "http://evil.example/x.js" = true := by
  decide

/-- Claim C2 (amended): the sanitizer's result never starts with `/`, and
the quoted examples hold (`webpack:///src/x.js` with empty root sanitizes
to `src/x.js`; a non-empty `sourceRoot` is prepended with its own
leading/trailing slashes trimmed); but only the first leading
pseudo-scheme is stripped, so the result may still begin with a scheme
token. -/
theorem c2_amended (src root : String) :
    startsWithChar (sanitize src root) '/' = false ∧
    sanitize "webpack:///src/x.js" "" = "src/x.js" ∧
    sanitize "src/x.js" "/root/" = "root/src/x.js" := by
  refine ⟨?_, by decide, by decide⟩
  show headIs (sanitizeL src.toList root.toList) '/' = false
  exact sanitizeL_head_not_slash _ _

/- ### Claim C4 -/

/-- Claim C4 (confirmed): in both branches, when `sourcesContent[i]`
exists and is non-null it is used verbatim as the content for
`sources[i]`, and no network fetch happens for that index (the step's
event list is exactly one save, with no fetch event). -/
theorem c4_embedded_content_preferred (net : String → HttpResult)
    (sm js page root : String) (contents : List (Option String)) (i : Nat)
    (src c : String) (h : contents[i]? = some (some c)) :
    recoverStepRemote net sm js root contents i src =
      [Event.save (sanitize src root) c] ∧
    recoverStepInline net page root contents i src =
      [Event.save (inlineFilename root src) c] := by
  have hne : contents.isEmpty = false := by
    cases contents with
    | nil => simp at h
    | cons a t => rfl
  have hem : embeddedContent contents i = some c := by
    unfold embeddedContent
    rw [hne, h]
    rfl
  constructor
  · unfold recoverStepRemote; rw [hem]
  · unfold recoverStepInline; rw [hem]

/-- Witness for C4 at a concrete input. -/
theorem c4_witness :
    recoverStepRemote (fun _ => HttpResult.exn) "m.map" "http://h/a.js" ""
        [some "code"] 0 "x.js" = [Event.save (sanitize "x.js" "") "code"] ∧
    recoverStepInline (fun _ => HttpResult.exn) "http://h/" ""
        [some "code"] 0 "x.js" = [Event.save (inlineFilename "" "x.js") "code"] :=
  c4_embedded_content_preferred (fun _ => HttpResult.exn) "m.map" "http://h/a.js"
    "http://h/" "" [some "code"] 0 "x.js" "code" (by decide)

/- ### Claim C5 -/

/-- Claim C5 (counterexample): the claim says every yielded (path,
content) pair has non-empty content.  A map whose `sourcesContent` entry
is the empty string is saved verbatim with empty content. -/
theorem c5_counterexample :
    processRemoteMapSources (fun _ => HttpResult.exn) "app.js.map"
        "http://h/app.js" "" ["a.js"] [some ""] = [Event.save "a.js" ""] := by
  decide

/-- Claim C5 (amended): each branch yields at most as many saves as the
map has sources, and any content obtained by fetch is non-empty (its
stripped text is non-empty); but content embedded in `sourcesContent` is
saved verbatim even when empty. -/
theorem c5_amended (net : String → HttpResult) (sm js page root : String)
    (sources : List String) (contents : List (Option String)) (i : Nat) :
    saveCount (processRemoteAux net sm js root contents i sources) ≤ sources.length ∧
    saveCount (processInlineAux net page root contents i sources) ≤ sources.length ∧
    (∀ (net2 : String → HttpResult) (s m c : String),
      try_fetch_source_by_url net2 s m = some c → pyStrip c ≠ "") := by
  refine ⟨?_, ?_, ?_⟩
  · induction sources generalizing i with
    | nil => simp [processRemoteAux, saveCount]
    | cons a t ihr =>
      rw [processRemoteAux, saveCount_append, List.length_cons]
      have h1 := saveCount_recoverStepRemote_le net sm js root contents i a
      have h2 := ihr (i + 1)
      omega
  · induction sources generalizing i with
    | nil => simp [processInlineAux, saveCount]
    | cons a t ihi =>
      rw [processInlineAux, saveCount_append, List.length_cons]
      have h1 := saveCount_recoverStepInline_le net page root contents i a
      have h2 := ihi (i + 1)
      omega
  · intro net2 s m c hc
    unfold try_fetch_source_by_url at hc
    cases hnet : net2 (urljoin m s) with
    | exn => rw [hnet] at hc; exact absurd hc (by simp)
    | resp st body =>
      rw [hnet] at hc
      have hc' : (if st = 200 then
          (if (pyStripL body.toList).isEmpty = true then none else some body)
          else none) = some c := hc
      by_cases h200 : st = 200
      · rw [if_pos h200] at hc'
        by_cases hstrip : (pyStripL body.toList).isEmpty
        · rw [if_pos hstrip] at hc'; exact absurd hc' (by simp)
        · rw [if_neg hstrip] at hc'
          have hcb : body = c := by simpa using hc'
          subst hcb
          rw [pyStrip_ne_empty_iff]
          simpa using hstrip
      · rw [if_neg h200] at hc'; exact absurd hc' (by simp)

/-- Witness for the amended C5 at concrete inputs. -/
theorem c5_amended_witness :
    saveCount (processRemoteAux (fun _ => HttpResult.resp 200 " hi ")
        "m.map" "http://h/a.js" "" [] 0 ["a.js"]) ≤ 1 ∧
    pyStrip " hi " ≠ "" :=
  ⟨(c5_amended (fun _ => HttpResult.resp 200 " hi ") "m.map" "http://h/a.js"
      "http://h/" "" ["a.js"] [] 0).1,
    (c5_amended (fun _ => HttpResult.resp 200 " hi ") "m.map" "http://h/a.js"
      "http://h/" "" ["a.js"] [] 0).2.2 (fun _ => HttpResult.resp 200 " hi ")
      "s.js" "http://h/m.map" " hi " (by decide)⟩

/- ### Claim C6 -/

/-- Claim C6 (counterexample): the claim says every 2xx response with a
non-empty body supplies the source's content.  A 206 response with body
`abc` is rejected: the code accepts exactly status 200. -/
theorem c6_counterexample :
    try_fetch_source_by_url (fun _ => HttpResult.resp 206 "abc") "x.js"
        "http://h/m.map" = none ∧
    200 ≤ 206 ∧ 206 < 300 ∧ ("abc" : String) ≠ "" := by
  decide

/-- Claim C6 (amended): a response supplies the content exactly when its
status is 200 (not any 2xx) and its body strips to a non-empty string (a
whitespace-only body counts as empty); an exception yields no content. -/
theorem c6_amended (net : String → HttpResult) (src mapUrl : String)
    (st : Nat) (body : String) :
    (net (urljoin mapUrl src) = HttpResult.resp st body →
      try_fetch_source_by_url net src mapUrl =
        (if st = 200 ∧ pyStrip body ≠ "" then some body else none)) ∧
    (net (urljoin mapUrl src) = HttpResult.exn →
      try_fetch_source_by_url net src mapUrl = none) := by
  constructor
  · intro h
    unfold try_fetch_source_by_url
    rw [h]
    show (if st = 200 then
        (if (pyStripL body.toList).isEmpty = true then none else some body)
        else none) = (if st = 200 ∧ pyStrip body ≠ "" then some body else none)
    by_cases h200 : st = 200
    · by_cases hstrip : (pyStripL body.toList).isEmpty
      · have hno : ¬ (st = 200 ∧ pyStrip body ≠ "") := by
          rintro ⟨-, hne⟩
          rw [pyStrip_ne_empty_iff] at hne
          rw [hne] at hstrip
          exact Bool.noConfusion hstrip
        rw [if_pos h200, if_pos hstrip, if_neg hno]
      · have hyes : st = 200 ∧ pyStrip body ≠ "" := by
          refine ⟨h200, ?_⟩
          rw [pyStrip_ne_empty_iff]
          simpa using hstrip
        rw [if_pos h200, if_neg hstrip, if_pos hyes]
    · have hno : ¬ (st = 200 ∧ pyStrip body ≠ "") := by rintro ⟨h1, -⟩; exact h200 h1
      rw [if_neg h200, if_neg hno]
  · intro h
    unfold try_fetch_source_by_url
    rw [h]

/-- Witness for the amended C6 at a concrete 200 response. -/
theorem c6_amended_witness :
    try_fetch_source_by_url (fun _ => HttpResult.resp 200 "console.log(1)")
        "s.js" "http://h/m.map" = some "console.log(1)" :=
  ((c6_amended (fun _ => HttpResult.resp 200 "console.log(1)") "s.js"
      "http://h/m.map" 200 "console.log(1)").1 rfl).trans (by decide)

/- ### Claim C7 -/

/-- Claim C7 (counterexample): the claim says an unobtainable source is
skipped *and logged* with its original identifier, in both branches.  In
the inline-script branch the skip is silent: a failing fetch for
`missing.js` produces no log line at all (iteration does continue to save
`b.js`). -/
theorem c7_counterexample :
    processInlineMapSources (fun _ => HttpResult.resp 404 "") "http://h/p/" ""
        ["missing.js", "b.js"] [none, some "B"] =
      [Event.fetch "http://h/p/missing.js", Event.save "b.js" "B"] ∧
    logCount (processInlineMapSources (fun _ => HttpResult.resp 404 "")
        "http://h/p/" "" ["missing.js", "b.js"] [none, some "B"]) = 0 := by
  decide

/-- Claim C7 (amended): in the remote-script branch an unobtainable source
is skipped and logged with its original (unsanitized) identifier; in the
inline-script branch it is skipped silently; in both branches iteration
continues, so the sources after any failing index are still processed
(the loop over `s1 ++ s2` is the loop over `s1` followed by the loop over
`s2`). -/
theorem c7_amended (net : String → HttpResult) (sm js page root : String)
    (contents : List (Option String)) (i : Nat) (src : String)
    (s1 s2 : List String) :
    (embeddedContent contents i = none →
      try_fetch_source_by_url net src (remoteMapUrlGuess sm js) = none →
      recoverStepRemote net sm js root contents i src =
        [Event.fetch (urljoin (remoteMapUrlGuess sm js) src), Event.logSkip src]) ∧
    (embeddedContent contents i = none →
      try_fetch_source_by_url net src page = none →
      recoverStepInline net page root contents i src =
        [Event.fetch (urljoin page src)]) ∧
    processRemoteAux net sm js root contents i (s1 ++ s2) =
      processRemoteAux net sm js root contents i s1 ++
        processRemoteAux net sm js root contents (i + s1.length) s2 ∧
    processInlineAux net page root contents i (s1 ++ s2) =
      processInlineAux net page root contents i s1 ++
        processInlineAux net page root contents (i + s1.length) s2 := by
  refine ⟨?_, ?_, processRemoteAux_append net sm js root contents s1 s2 i,
    processInlineAux_append net page root contents s1 s2 i⟩
  · intro hem hfetch
    unfold recoverStepRemote
    rw [hem, hfetch]
  · intro hem hfetch
    unfold recoverStepInline
    rw [hem, hfetch]

/-- Witness for the amended C7 at a concrete failing fetch. -/
theorem c7_amended_witness :
    recoverStepRemote (fun _ => HttpResult.resp 404 "") "app.js.map"
        "http://h/js/app.js" "" [] 0 "missing.js" =
      [Event.fetch (urljoin (remoteMapUrlGuess "app.js.map" "http://h/js/app.js")
          "missing.js"),
        Event.logSkip "missing.js"] ∧
    recoverStepInline (fun _ => HttpResult.resp 404 "") "http://h/p/" ""
        [] 0 "missing.js" = [Event.fetch (urljoin "http://h/p/" "missing.js")] :=
  ⟨(c7_amended (fun _ => HttpResult.resp 404 "") "app.js.map" "http://h/js/app.js"
      "http://h/p/" "" [] 0 "missing.js" [] []).1 (by decide) (by decide),
    (c7_amended (fun _ => HttpResult.resp 404 "") "app.js.map" "http://h/js/app.js"
      "http://h/p/" "" [] 0 "missing.js" [] []).2.1 (by decide) (by decide)⟩

/- ### Claim C8 -/

/-- Claim C8 (counterexample): the claim says fetched sources resolve
against the map's own URL when the map has one, and against the hosting
page's URL only for `data:` maps.  For a remote script at
`http://h/js/app.js` with a `data:` map, the code fetches
`http://h/js/s.js` — resolved against the script's URL, not the page's
`http://h/index.html`.  For an inline script whose map reference
`maps/app.js.map` gives the map its own URL, the code still fetches
against the page's URL. -/
theorem c8_counterexample :
    recoverStepRemote (fun _ => HttpResult.resp 404 "")
        "data:application/json;base64,e30=" "http://h/js/app.js" "" [] 0 "s.js" =
      [Event.fetch "http://h/js/s.js", Event.logSkip "s.js"] ∧
    urljoin "http://h/index.html" "s.js" = "http://h/s.js" ∧
    ("http://h/js/s.js" : String) ≠ "http://h/s.js" ∧
    recoverStepInline (fun _ => HttpResult.resp 404 "") "http://h/p/index.html" ""
        [] 0 "t.js" = [Event.fetch "http://h/p/t.js"] ∧
    urljoin (urljoin "http://h/p/index.html" "maps/app.js.map") "t.js" =
      "http://h/p/maps/t.js" ∧
    ("http://h/p/t.js" : String) ≠ "http://h/p/maps/t.js" := by
  decide

/-- Claim C8 (amended): whenever content must be fetched, the remote-script
branch resolves the sources entry against `map_url_guess` — the map's
resolved URL for a non-`data:` reference, but the *script's* final URL
(not the page's) for a `data:` reference — while the inline-script branch
always resolves against the hosting page's URL, even when its map
reference is remote. -/
theorem c8_amended (net : String → HttpResult) (sm js page root : String)
    (contents : List (Option String)) (i : Nat) (src : String)
    (h : embeddedContent contents i = none) :
    (recoverStepRemote net sm js root contents i src).head? =
      some (Event.fetch (urljoin (remoteMapUrlGuess sm js) src)) ∧
    (recoverStepInline net page root contents i src).head? =
      some (Event.fetch (urljoin page src)) := by
  constructor
  · unfold recoverStepRemote
    rw [h]
    cases try_fetch_source_by_url net src (remoteMapUrlGuess sm js) <;> rfl
  · unfold recoverStepInline
    rw [h]
    cases try_fetch_source_by_url net src page <;> rfl

/-- Witness for the amended C8 at a concrete input. -/
theorem c8_amended_witness :
    (recoverStepRemote (fun _ => HttpResult.resp 404 "") "data:app" "http://h/js/a.js"
        "" [] 0 "s.js").head? =
      some (Event.fetch (urljoin (remoteMapUrlGuess "data:app" "http://h/js/a.js") "s.js")) ∧
    (recoverStepInline (fun _ => HttpResult.resp 404 "") "http://h/p/" ""
        [] 0 "s.js").head? = some (Event.fetch (urljoin "http://h/p/" "s.js")) :=
  c8_amended (fun _ => HttpResult.resp 404 "") "data:app" "http://h/js/a.js"
    "http://h/p/" "" [] 0 "s.js" (by decide)

/- ### Reference Extractor (lines 64-71) -/

/-- The literal text of the regex's line-comment alternative up to the
capture group. -/
def smLineMark : List Char := "//# sourceMappingURL=".toList

/-- The literal text of the regex's block-comment alternative up to the
capture group. -/
def smBlockMark : List Char := "/*# sourceMappingURL=".toList

/-- The line-comment alternative `//# sourceMappingURL=(?P<url>.+)$` in
MULTILINE mode, tried at the current position: after the literal marker,
`.+` greedily captures one or more non-newline characters up to the line
end, where `$` matches. -/
def matchLineForm (s : List Char) : Option (List Char) :=
  if smLineMark.isPrefixOf s then
    match (s.drop smLineMark.length).takeWhile (fun c => c ≠ '\n') with
    | [] => none
    | cap => some cap
  else none

/-- Backtracking search for the block alternative's capture: the largest
capture length `k ≥ 1` (within the current line) such that the capture is
followed by whitespace (which may span lines) and then the literal two
characters star-slash. -/
def blockCap : Nat → List Char → Option (List Char)
  | 0, _ => none
  | Nat.succ k, rest =>
    if ("*/".toList).isPrefixOf ((rest.drop (k + 1)).dropWhile isPyWS) then
      some (rest.take (k + 1))
    else blockCap k rest

/-- The block-comment alternative of the regex, tried at the current
position: the literal marker, then a greedy `.+` capture constrained so
that only whitespace separates it from the closing star-slash. -/
def matchBlockForm (s : List Char) : Option (List Char) :=
  if smBlockMark.isPrefixOf s then
    blockCap ((s.drop smBlockMark.length).takeWhile (fun c => c ≠ '\n')).length
      (s.drop smBlockMark.length)
  else none

/-- `re.search` with the two-alternative pattern `sm_re` (line 64):
scan positions left to right; at each position try the line-comment
alternative first, then the block-comment one. -/
def searchMappingRef : List Char → Option (List Char)
  | [] => none
  | c :: t =>
    match matchLineForm (c :: t) with
    | some cap => some cap
    | none =>
      match matchBlockForm (c :: t) with
      | some cap => some cap
      | none => searchMappingRef t

/-- `extract_mapping_reference` (lines 66-71): the first match's captured
group, stripped of surrounding whitespace; `none` when the pattern does
not occur. -/
def extract_mapping_reference (js_text : String) : Option String :=
  (searchMappingRef js_text.toList).map (fun cap => pyStrip (String.mk cap))

/- ### Claim C9 -/

/-- Claim C9 (confirmed): the Reference Extractor returns the first
match's captured value trimmed of surrounding whitespace, for both the
line-comment and the block-comment form, and `none` when no match exists;
in particular a multi-line body containing `//# sourceMappingURL=foo.js.map`
yields exactly `foo.js.map`.  Demonstrated on: the quoted multi-line
example; a block-comment form; first-match-wins with two candidates;
whitespace trimming of the captured value; and an absent reference. -/
theorem c9_reference_extractor :
    extract_mapping_reference
        "function f(a)\nvar y = 2;\n//# sourceMappingURL=foo.js.map\n" =
      some "foo.js.map" ∧
    extract_mapping_reference "code();\n/*# sourceMappingURL=bar.js.map */\nmore();" =
      some "bar.js.map" ∧
    extract_mapping_reference
        "//# sourceMappingURL=first.map\n//# sourceMappingURL=second.map\n" =
      some "first.map" ∧
    extract_mapping_reference "//# sourceMappingURL=  padded.map  \nrest();" =
      some "padded.map" ∧
    extract_mapping_reference "var x = 1;\n// a normal comment\n" = none := by
  decide

/- ### Top-level control flow (lines 24-31 and 110): Claim C10 -/

/-- Observable top-level actions of the module: the usage message, a
process exit, the `os.makedirs` call, the initial page GET, and the
subsequent per-script processing (abstracted). -/
inductive TopEvent where
  | printUsage
  | exitProc (code : Nat)
  | mkdirs (dir : String)
  | getPage (url : String)
  | runStep (tag : String)
deriving DecidableEq, Repr

def TopEvent.isGetPage : TopEvent → Bool
  | TopEvent.getPage _ => true
  | _ => false

/-- The module's top-level effect trace in program order: the argv check
(lines 24-26), `os.makedirs(out_dir, exist_ok=True)` (line 31), then the
initial page fetch of `page_url.rstrip('/')` (line 110).  `rest` abstracts
the per-script processing (lines 111-200), which runs only when the page
fetch succeeds; an unhandled `get_text` exception terminates the process. -/
def mainTrace (argv : List String) (pageFetchOk : Bool)
    (rest : List TopEvent) : List TopEvent :=
  match argv with
  | _prog :: page_url :: out_dir :: _ =>
    TopEvent.mkdirs out_dir ::
      TopEvent.getPage (rstripSlash page_url) ::
        (if pageFetchOk then rest else [TopEvent.exitProc 1])
  | _ => [TopEvent.printUsage, TopEvent.exitProc 1]

/-- Claim C10 (confirmed): with both arguments supplied, the output
directory is created unconditionally before the page fetch — the
`mkdirs` event occurs in the trace, and already within the prefix that
precedes the first page GET — for every page-fetch outcome (success,
failure, and runs that recover nothing); with a missing argument the
program only prints usage and exits. -/
theorem c10_outdir_created_before_fetch (prog page_url out_dir : String)
    (restArgs : List String) (pageFetchOk : Bool) (rest : List TopEvent) :
    TopEvent.mkdirs out_dir ∈
      mainTrace (prog :: page_url :: out_dir :: restArgs) pageFetchOk rest ∧
    TopEvent.mkdirs out_dir ∈
      (mainTrace (prog :: page_url :: out_dir :: restArgs) pageFetchOk rest).takeWhile
        (fun e => !e.isGetPage) ∧
    mainTrace [prog] pageFetchOk rest = [TopEvent.printUsage, TopEvent.exitProc 1] := by
  refine ⟨?_, ?_, rfl⟩
  · simp [mainTrace]
  · simp [mainTrace, List.takeWhile, TopEvent.isGetPage]

/- ### Map Decoder: handle_map_url (lines 73-96) and its collaborators -/

/-- Python `s.split(",", 1)`: `none` models the `ValueError` raised when
there is no comma; otherwise the text before the first comma and
everything after it. -/
def splitFirstComma (s : String) : Option (String × String) :=
  if (s.toList.takeWhile (fun c => c ≠ ',')).length = s.toList.length then none
  else some (String.mk (s.toList.takeWhile (fun c => c ≠ ',')),
    String.mk (s.toList.drop ((s.toList.takeWhile (fun c => c ≠ ',')).length + 1)))

/-- The base64 alphabet. -/
def isB64Char (c : Char) : Bool :=
  c.isUpper || c.isLower || c.isDigit || c = '+' || c = '/'

/-- The 6-bit value of a base64 alphabet character. -/
def b64val (c : Char) : Nat :=
  if c.isUpper then c.toNat - 65
  else if c.isLower then c.toNat - 71
  else if c.isDigit then c.toNat + 4
  else if c = '+' then 62
  else 63

/-- Decode whole 4-character base64 groups, allowing padding only in the
final group; a leftover of 1-3 characters is the `binascii.Error` raised
on invalid padding. -/
def b64groups : List Char → Except String (List Char)
  | [] => Except.ok []
  | a :: b :: c :: d :: rest =>
    if a = '=' || b = '=' then Except.error "Invalid base64-encoded string"
    else if c = '=' then
      (if d = '=' && rest.isEmpty then
        Except.ok [Char.ofNat (b64val a * 4 + b64val b / 16)]
      else Except.error "Invalid base64-encoded string")
    else if d = '=' then
      (if rest.isEmpty then
        Except.ok [Char.ofNat (b64val a * 4 + b64val b / 16),
          Char.ofNat (b64val b % 16 * 16 + b64val c / 4)]
      else Except.error "Invalid base64-encoded string")
    else
      match b64groups rest with
      | Except.ok tail =>
        Except.ok (Char.ofNat (b64val a * 4 + b64val b / 16) ::
          Char.ofNat (b64val b % 16 * 16 + b64val c / 4) ::
            Char.ofNat (b64val c % 4 * 64 + b64val d) :: tail)
      | Except.error e => Except.error e
  | _ => Except.error "Invalid base64-encoded string"

/-- Modelled collaborator `base64.b64decode` (its default `validate=False`
mode): characters outside the alphabet are discarded, and what remains
must form whole 4-character groups with padding only at the end;
`Except.error` models the raised `binascii.Error`.  Decoded bytes are
modelled as characters carrying the byte value (the payloads in this
development are ASCII). -/
def b64decode (s : String) : Except String String :=
  match b64groups (s.toList.filter (fun c => isB64Char c || c = '=')) with
  | Except.ok bytes => Except.ok (String.mk bytes)
  | Except.error e => Except.error e

/-- Parsed JSON values, as produced by `json.loads`; numbers keep their
source lexeme. -/
inductive JVal where
  | jnull
  | jbool (b : Bool)
  | jnum (lex : String)
  | jstr (s : String)
  | jarr (xs : List JVal)
  | jobj (kvs : List (String × JVal))

/-- JSON insignificant whitespace. -/
def jsonWS (c : Char) : Bool := c = ' ' || c = '\t' || c = '\n' || c = '\r'

def skipWS (l : List Char) : List Char := l.dropWhile jsonWS

/-- The opening curly brace character. -/
def lbrace : Char := Char.ofNat 123

/-- The closing curly brace character. -/
def rbrace : Char := Char.ofNat 125

/-- JSON single-character string escapes. -/
def escChar (c : Char) : Option Char :=
  if c = '"' then some '"'
  else if c = '\\' then some '\\'
  else if c = '/' then some '/'
  else if c = 'b' then some (Char.ofNat 8)
  else if c = 'f' then some (Char.ofNat 12)
  else if c = 'n' then some '\n'
  else if c = 'r' then some '\r'
  else if c = 't' then some '\t'
  else none

def hexVal (c : Char) : Option Nat :=
  if c.isDigit then some (c.toNat - 48)
  else if 'a' ≤ c && c ≤ 'f' then some (c.toNat - 87)
  else if 'A' ≤ c && c ≤ 'F' then some (c.toNat - 55)
  else none

/-- Parse the body of a JSON string after the opening quote, returning the
unescaped content and the input after the closing quote. -/
def parseStr : Nat → List Char → Option (List Char × List Char)
  | 0, _ => none
  | Nat.succ fuel, l =>
    match l with
    | [] => none
    | '"' :: r => some ([], r)
    | '\\' :: 'u' :: h1 :: h2 :: h3 :: h4 :: r =>
      (match hexVal h1, hexVal h2, hexVal h3, hexVal h4 with
       | some a, some b, some c, some d =>
         (match parseStr fuel r with
          | some (s, r2) => some (Char.ofNat (a * 4096 + b * 256 + c * 16 + d) :: s, r2)
          | none => none)
       | _, _, _, _ => none)
    | '\\' :: e :: r =>
      (match escChar e with
       | some c =>
         (match parseStr fuel r with
          | some (s, r2) => some (c :: s, r2)
          | none => none)
       | none => none)
    | c :: r =>
      (match parseStr fuel r with
       | some (s, r2) => some (c :: s, r2)
       | none => none)

/-- Parse an optional JSON fraction part. -/
def parseFrac : List Char → Option (List Char × List Char)
  | '.' :: t =>
    (match t.takeWhile Char.isDigit with
     | [] => none
     | ds => some ('.' :: ds, t.drop ds.length))
  | l => some ([], l)

/-- Parse an optional JSON exponent part. -/
def parseExp (l : List Char) : Option (List Char × List Char) :=
  match l with
  | c :: t =>
    if c = 'e' || c = 'E' then
      match t with
      | s :: t2 =>
        if s = '+' || s = '-' then
          (match t2.takeWhile Char.isDigit with
           | [] => none
           | ds => some (c :: s :: ds, t2.drop ds.length))
        else
          (match t.takeWhile Char.isDigit with
           | [] => none
           | ds => some (c :: ds, t.drop ds.length))
      | [] => none
    else some ([], l)
  | [] => some ([], [])

/-- Parse a JSON number lexeme (`-?(0|[1-9][0-9]*)(\.[0-9]+)?([eE][+-]?[0-9]+)?`). -/
def parseNum (l : List Char) : Option (List Char × List Char) :=
  match l with
  | '-' :: t =>
    (match parseNumBody t with
     | some (lex, r) => some ('-' :: lex, r)
     | none => none)
  | t => parseNumBody t
where
  parseNumBody (t : List Char) : Option (List Char × List Char) :=
    match t with
    | c :: t2 =>
      if c.isDigit then
        let ip : List Char := if c = '0' then ['0'] else c :: t2.takeWhile Char.isDigit
        let r1 := (c :: t2).drop ip.length
        match parseFrac r1 with
        | none => none
        | some (fp, r2) =>
          match parseExp r2 with
          | none => none
          | some (ep, r3) => some (ip ++ fp ++ ep, r3)
      else none
    | [] => none

/-- The three entry points of the recursive-descent JSON parser: a value,
the items of a non-empty array, the items of a non-empty object. -/
inductive PMode where
  | pval
  | parrItems
  | pobjItems

/-- Fuel-bounded recursive-descent parser of the JSON grammar accepted by
`json.loads`. -/
def parseJ : Nat → PMode → List Char → Option (JVal × List Char)
  | 0, _, _ => none
  | Nat.succ fuel, PMode.pval, l =>
    (match skipWS l with
     | [] => none
     | c :: r =>
       if c = '"' then
         match parseStr fuel r with
         | some (s, r2) => some (JVal.jstr (String.mk s), r2)
         | none => none
       else if c = '[' then
         (match skipWS r with
          | ']' :: r2 => some (JVal.jarr [], r2)
          | r2 => parseJ fuel PMode.parrItems r2)
       else if c = lbrace then
         (if headIs (skipWS r) rbrace then some (JVal.jobj [], (skipWS r).tail)
          else parseJ fuel PMode.pobjItems (skipWS r))
       else if c = 'n' then
         (match r with
          | 'u' :: 'l' :: 'l' :: r2 => some (JVal.jnull, r2)
          | _ => none)
       else if c = 't' then
         (match r with
          | 'r' :: 'u' :: 'e' :: r2 => some (JVal.jbool true, r2)
          | _ => none)
       else if c = 'f' then
         (match r with
          | 'a' :: 'l' :: 's' :: 'e' :: r2 => some (JVal.jbool false, r2)
          | _ => none)
       else
         (match parseNum (c :: r) with
          | some (lex, r2) => some (JVal.jnum (String.mk lex), r2)
          | none => none))
  | Nat.succ fuel, PMode.parrItems, l =>
    (match parseJ fuel PMode.pval l with
     | none => none
     | some (v, r) =>
       match skipWS r with
       | ',' :: r2 =>
         (match parseJ fuel PMode.parrItems (skipWS r2) with
          | some (JVal.jarr vs, r3) => some (JVal.jarr (v :: vs), r3)
          | _ => none)
       | ']' :: r2 => some (JVal.jarr [v], r2)
       | _ => none)
  | Nat.succ fuel, PMode.pobjItems, l =>
    (match skipWS l with
     | '"' :: r =>
       (match parseStr fuel r with
        | none => none
        | some (k, r2) =>
          match skipWS r2 with
          | ':' :: r3 =>
            (match parseJ fuel PMode.pval r3 with
             | none => none
             | some (v, r4) =>
               if headIs (skipWS r4) rbrace then
                 some (JVal.jobj [(String.mk k, v)], (skipWS r4).tail)
               else
                 match skipWS r4 with
                 | ',' :: r5 =>
                   (match parseJ fuel PMode.pobjItems r5 with
                    | some (JVal.jobj kvs, r6) =>
                      some (JVal.jobj ((String.mk k, v) :: kvs), r6)
                    | _ => none)
                 | _ => none)
          | _ => none)
     | _ => none)

/-- Modelled collaborator `json.loads` (invoked at lines 84 and 86):
`Except.error` models the raised `json.JSONDecodeError`.  (`json.loads`
also accepts UTF-8 bytes; byte payloads are modelled as strings.) -/
def json_loads (s : String) : Except String JVal :=
  match parseJ (s.length + 1) PMode.pval s.toList with
  | none => Except.error "Expecting value"
  | some (v, rest) =>
    if (skipWS rest).isEmpty then Except.ok v else Except.error "Extra data"

/-- `handle_map_url` (lines 73-96).  `fetchJson` is the network oracle for
`session.get(...)` followed by `r.raise_for_status()` and `r.json()`; its
failures are caught (lines 90-96) and become `Except.ok none` ("no map").
In the `data:` branch, only the missing-comma `ValueError` is caught
(lines 77-79); failures of `base64.b64decode` and `json.loads` are *not*
caught, so they propagate as `Except.error` — an uncaught exception that
terminates the process. -/
def handle_map_url (fetchJson : String → Except String JVal)
    (map_url_or_data js_base_url : String) : Except String (Option JVal) :=
  if strStartsWith map_url_or_data "data:" then
    match splitFirstComma map_url_or_data with
    | none => Except.ok none
    | some (header, payload) =>
      if strContains header "base64" then
        match b64decode payload with
        | Except.error e => Except.error e
        | Except.ok raw =>
          match json_loads raw with
          | Except.error e => Except.error e
          | Except.ok j => Except.ok (some j)
      else
        match json_loads payload with
        | Except.error e => Except.error e
        | Except.ok j => Except.ok (some j)
  else
    match fetchJson (urljoin js_base_url map_url_or_data) with
    | Except.error _ => Except.ok none
    | Except.ok j => Except.ok (some j)

/- ### Claim C3 -/

/-- Claim C3 (counterexample): the claim says a malformed `data:` payload
is recoverable, treated identically to a fetch failure (which yields
"no map", `ok none`).  In fact a payload that is invalid base64 — here a
single alphabet character `a`, which is not a whole base64 group — or
invalid JSON (`nope`) raises an uncaught exception: `handle_map_url`
propagates an error instead of returning `ok none`, terminating the
process. -/
theorem c3_counterexample :
    handle_map_url (fun _ => Except.error "no network")
        "data:application/json;base64,a" "http://h/" =
      Except.error "Invalid base64-encoded string" ∧
    handle_map_url (fun _ => Except.error "no network")
        "data:application/json,nope" "http://h/" =
      Except.error "Expecting value" ∧
    (Except.error "Invalid base64-encoded string" : Except String (Option JVal)) ≠
      Except.ok none := by
  refine ⟨rfl, rfl, fun h => Except.noConfusion h⟩

/-- Claim C3 (amended): a `data:` reference with no comma is recoverable
(`ok none`, the script's map is skipped), and a failing remote map fetch
is likewise recoverable; but a `data:` payload whose base64 decoding or
JSON parsing fails raises an uncaught exception that terminates the
process — a third process-fatal condition beyond the initial page fetch
and the argv check. -/
theorem c3_amended (fetchJson : String → Except String JVal) (ref base e : String)
    (h1 : strStartsWith ref "data:" = false)
    (h2 : fetchJson (urljoin base ref) = Except.error e) :
    handle_map_url fetchJson ref base = Except.ok none ∧
    handle_map_url fetchJson "data:application/json;base64" base = Except.ok none ∧
    handle_map_url fetchJson "data:application/json;base64,a" base =
      Except.error "Invalid base64-encoded string" ∧
    handle_map_url fetchJson "data:application/json,nope" base =
      Except.error "Expecting value" := by
  refine ⟨?_, rfl, rfl, rfl⟩
  unfold handle_map_url
  rw [h1]
  show (match fetchJson (urljoin base ref) with
    | Except.error _ => Except.ok none
    | Except.ok j => Except.ok (some j)) = Except.ok none
  rw [h2]

/-- Witness for the amended C3 at a concrete failing fetch. -/
theorem c3_amended_witness :
    handle_map_url (fun _ => Except.error "timeout") "app.js.map" "http://h/" =
      Except.ok none ∧
    handle_map_url (fun _ => Except.error "timeout")
        "data:application/json;base64" "http://h/" = Except.ok none ∧
    handle_map_url (fun _ => Except.error "timeout")
        "data:application/json;base64,a" "http://h/" =
      Except.error "Invalid base64-encoded string" ∧
    handle_map_url (fun _ => Except.error "timeout")
        "data:application/json,nope" "http://h/" =
      Except.error "Expecting value" :=
  c3_amended (fun _ => Except.error "timeout") "app.js.map" "http://h/" "timeout"
    (by decide) rfl

end Grab
